import Mathlib

/-!
Verification of the incremental content synchronization engine of the
yoonjin67/website repository (Go sources src/website.go and the internal
types package) against its natural-language specification.

The Go code is shallowly embedded: machine strings become Lean `String`
(manipulated through their `List Char` contents), `time.Time` values become
`Nat` tick counts (0 is the zero time, matching `time.Time.IsZero`), the Go
map used as the post store becomes an association list, and the effect of a
run (file write-back, store mutation) is made explicit in return values.
The blake3 digest is represented by the exact byte stream the Go code feeds
into the hasher: blake3 itself is a fixed deterministic function of that
stream, so equal streams yield equal digests in the real program, and every
equality of digests proved here holds for the real program as well.
-/

namespace Website

/-! ## Generic list/string helpers embedding the Go strings primitives -/

/-- Embedding of Go strings.TrimPrefix: drop the prefix once when present,
otherwise return the input unchanged. -/
def trimPrefixL (s pre : List Char) : List Char :=
  if pre.isPrefixOf s then s.drop pre.length else s

/-- Embedding of Go strings.Cut: split around the first occurrence of the
separator; `none` when the separator does not occur. -/
def cut (sep : List Char) : List Char → Option (List Char × List Char)
  | [] => if sep.isPrefixOf ([] : List Char) then some ([], ([] : List Char).drop sep.length) else none
  | c :: rest =>
    if sep.isPrefixOf (c :: rest) then some ([], (c :: rest).drop sep.length)
    else (cut sep rest).map (fun p => (c :: p.1, p.2))

/-- Whether `sub` occurs as a contiguous substring (Go strings.Contains). -/
def containsSub (sub : List Char) : List Char → Bool
  | [] => sub.isPrefixOf ([] : List Char)
  | c :: rest => sub.isPrefixOf (c :: rest) || containsSub sub rest

/-- Fuel-indexed worker for `replaceAll`; the fuel is the input length, which
suffices because every step consumes at least one character when the pattern
is nonempty. -/
def replaceAllAux (pat rep : List Char) : Nat → List Char → List Char
  | 0, s => s
  | _ + 1, [] => []
  | fuel + 1, c :: rest =>
    if pat ≠ [] ∧ pat.isPrefixOf (c :: rest) then
      rep ++ replaceAllAux pat rep fuel ((c :: rest).drop pat.length)
    else
      c :: replaceAllAux pat rep fuel rest

/-- Embedding of Go strings.ReplaceAll for a nonempty pattern: replace all
leftmost non-overlapping occurrences of `pat` by `rep`. -/
def replaceAll (s pat rep : List Char) : List Char :=
  replaceAllAux pat rep s.length s

/-! ## Hex encoding (fmt %x over a byte slice / encoding-hex) -/

/-- Lowercase hexadecimal digit for a value below 16. -/
def hexChar (n : Nat) : Char :=
  if n < 10 then Char.ofNat (48 + n) else Char.ofNat (87 + n)

/-- Two-digit lowercase hex rendering of one byte. -/
def byteHex (b : Nat) : List Char :=
  [hexChar (b / 16), hexChar (b % 16)]

/-- Hex rendering of a byte sequence, as produced by fmt %x on a byte array
and by hex.EncodeToString. -/
def bytesHex : List Nat → List Char
  | [] => []
  | b :: rest => byteHex b ++ bytesHex rest

/-! ## Path generation (src/website.go lines 70-102) -/

/-- The rootDir constant of src/website.go. -/
def rootDir : String := "root"

/-- The slug computation of generatePath (src/website.go lines 71-95):
strip the rootDir prefix and leading slashes, lowercase, replace the space
character and the fixed unsafe-character set by hyphens, then run the five
bounded hyphen-collapse passes of the source.  Go strings.ToLower is
modelled by Char.toLower, which agrees with it on ASCII input.  The
characters brace, backtick and apostrophe are written via
Char.ofNat (123/125/96/39) to keep them out of literals. -/
def slugOf (title : String) : List Char :=
  let fp := trimPrefixL title.data rootDir.data
  let fp := fp.dropWhile (fun c => c = '/')
  let fp := fp.map Char.toLower
  let fp := replaceAll fp [' '] ['-']
  let fp := replaceAll fp ['/'] ['-']
  let fp := replaceAll fp [Char.ofNat 123] ['-']
  let fp := replaceAll fp [Char.ofNat 125] ['-']
  let fp := replaceAll fp ['|'] ['-']
  let fp := replaceAll fp ['\\'] ['-']
  let fp := replaceAll fp ['^'] ['-']
  let fp := replaceAll fp ['~'] ['-']
  let fp := replaceAll fp ['['] ['-']
  let fp := replaceAll fp [']'] ['-']
  let fp := replaceAll fp [Char.ofNat 39] ['-']
  let fp := replaceAll fp ['\"'] ['-']
  let fp := replaceAll fp [Char.ofNat 96] ['-']
  let fp := replaceAll fp ['-', '-', '-', '-'] ['-']
  let fp := replaceAll fp ['-', '-', '-'] ['-']
  let fp := replaceAll fp ['-', '-'] ['-']
  let fp := replaceAll fp ['-', '-'] ['-']
  let fp := replaceAll fp ['-', '-'] ['-']
  fp

/-- Embedding of generatePath (src/website.go lines 70-102).  The entropy
argument stands for the four bytes drawn from crypto/rand inside the Go
function; the final line is the Sprintf of line 99, which appends the
route namespace, a hyphen and the hex-encoded entropy around the slug. -/
def generatePath (title : String) (entropy : List Nat) : String :=
  String.mk ("/blog/posts/".data ++ slugOf title ++ ['-'] ++ bytesHex entropy)

/-! ## Data model (internal types package, src/unnamed/part_000) -/

/-- DocumentType of the types package. -/
inductive DocumentType where
  | unknown
  | markdown
  | html
deriving DecidableEq, Repr

/-- The stringer-generated DocumentType.String with linecomment names. -/
def DocumentType.str : DocumentType → String
  | DocumentType.unknown => "unknown"
  | DocumentType.markdown => "markdown"
  | DocumentType.html => "html"

/-- Metadata of the types package.  The date is a tick count; 0 is the zero
time, matching time.Time.IsZero. -/
structure Metadata where
  id : String
  title : String
  author : String
  description : String
  date : Nat
  path : String
  goPackage : String
  canonical : String
  hidden : Bool
deriving DecidableEq, Repr

/-- Document of the types package. -/
structure Document where
  type : DocumentType
  markdown : String
  html : String
  metadata : Metadata
deriving DecidableEq, Repr

/-- Post of the types package. -/
structure Post where
  id : String
  filePath : String
  path : String
  hash : String
  createdAt : Nat
  updatedAt : Nat
  main : Option Document
  translated : List (String × Document)
deriving DecidableEq, Repr

/-- Fixed serialization of a date, standing for Format(time.RFC3339): an
injective rendering of the tick count (RFC3339 is injective at second
resolution, which is the resolution of the embedded tick counts). -/
def formatRFC3339 (t : Nat) : String := toString t

/-- Embedding of Metadata.Hash (types package lines 88-100).  The Go code
feeds exactly this byte stream into blake3 and hex-encodes the digest; the
digest is represented here by its preimage stream, which preserves
determinism and all digest equalities of the real program. -/
def Metadata.hash (g : Metadata) : String :=
  g.id ++ g.title ++ g.author ++ g.description ++ formatRFC3339 g.date
    ++ g.path ++ g.goPackage ++ g.canonical
    ++ (if g.hidden then "true" else "false")

/-- Embedding of Document.Hash (types package lines 102-109): blake3 over
the type name, the raw markdown, the rendered HTML and the metadata digest,
represented by its preimage stream. -/
def Document.hash (g : Document) : String :=
  g.type.str ++ g.markdown ++ g.html ++ g.metadata.hash

/-! ## The post store

The Go store is the map gc.DataStore.Posts from post ID to a Post pointer.
It is embedded as an association list with Go map semantics: lookup by key,
insert replaces the binding when the key is present. -/

/-- Lookup in the store map. -/
def lookupPost : List (String × Post) → String → Option Post
  | [], _ => none
  | (k, v) :: rest, key => if k = key then some v else lookupPost rest key

/-- Insert-or-replace in the store map. -/
def insertPost : List (String × Post) → String → Post → List (String × Post)
  | [], key, p => [(key, p)]
  | (k, v) :: rest, key, p =>
    if k = key then (key, p) :: rest else (k, v) :: insertPost rest key p

/-! ## Metadata normalization (src/website.go lines 154-171) -/

/-- Embedding of the normalization block of processMarkdownFile
(src/website.go lines 154-171): fill an empty ID from the fresh random
identifier, a zero date from the current UTC time, an empty path from
generatePath of the title, tracking in the returned Bool whether anything
was filled in.  `freshId` stands for types.RandID and `entropy` for the
random bytes drawn inside generatePath; the conditions are checked
sequentially on the partially updated record, as in the source. -/
def normalizeMetadata (doc : Document) (freshId : String) (nowUTC : Nat)
    (entropy : List Nat) : Document × Bool :=
  let m0 := doc.metadata
  let m1 := if m0.id = "" then { m0 with id := freshId } else m0
  let u1 := decide (m0.id = "")
  let m2 := if m1.date = 0 then { m1 with date := nowUTC } else m1
  let u2 := u1 || decide (m1.date = 0)
  let m3 := if m2.path = "" then { m2 with path := generatePath m2.title entropy } else m2
  let u3 := u2 || decide (m2.path = "")
  ({ doc with metadata := m3 }, u3)

/-! ## Front-matter write-back (src/website.go lines 176-199) -/

/-- The front-matter delimiter line used by the write-back code. -/
def fmDelim : String := "---\n"

/-- Modelled stand-in for the external gopkg.in/yaml.v3 Marshal of a
Metadata record (the exact YAML text is irrelevant to every claim; only
that some serialization is spliced between the delimiters matters). -/
def yamlMarshal (m : Metadata) : String :=
  "id: " ++ m.id ++ "\n" ++ "title: " ++ m.title ++ "\n"
    ++ "author: " ++ m.author ++ "\n"
    ++ "description: " ++ m.description ++ "\n"
    ++ "date: " ++ formatRFC3339 m.date ++ "\n"
    ++ "path: " ++ m.path ++ "\n"
    ++ "go_package: " ++ m.goPackage ++ "\n"
    ++ "canonical: " ++ m.canonical ++ "\n"
    ++ "hidden: " ++ (if m.hidden then "true" else "false") ++ "\n"

/-- Embedding of the front-matter rewrite of processMarkdownFile
(src/website.go lines 182-188): strip one leading delimiter line, cut at
the next occurrence of the delimiter, and splice the new metadata between
two fresh delimiters in front of the remaining text; `none` is the
ErrInvalidMarkdown case. -/
def rewriteFrontMatter (md meta : String) : Option String :=
  let original := trimPrefixL md.data fmDelim.data
  (cut fmDelim.data original).map
    (fun p => String.mk (fmDelim.data ++ meta.data ++ fmDelim.data ++ p.2))

/-! ## Store merge (src/website.go lines 206-229) -/

/-- The post the merge starts from (src/website.go lines 209-220): the
stored post for the document ID when present, otherwise a fresh record with
both lifecycle timestamps set to now and an empty translation map. -/
def mergeBase (store : List (String × Post)) (doc : Document) (now : Nat) : Post :=
  match lookupPost store doc.metadata.id with
  | some p => p
  | none =>
    { id := doc.metadata.id, filePath := "", path := "", hash := ""
      createdAt := now, updatedAt := now, main := none, translated := [] }

/-- The field updates applied to the post (src/website.go lines 222-229):
file path, URL path and main document are set unconditionally; the content
hash and updatedAt change only when the fresh digest differs. -/
def mergeFinal (base : Post) (doc : Document) (path : String) (now : Nat) : Post :=
  let w : Post := { base with filePath := path, path := doc.metadata.path, main := some doc }
  if w.hash ≠ doc.hash then { w with hash := doc.hash, updatedAt := now } else w

/-- Embedding of the whole post-store update of processMarkdownFile
(src/website.go lines 206-229).  In Go the post is mutated through a map
pointer; the net effect is that the final record is bound to the document
ID in the map. -/
def mergePost (store : List (String × Post)) (doc : Document) (path : String)
    (now : Nat) : List (String × Post) :=
  insertPost store doc.metadata.id (mergeFinal (mergeBase store doc now) doc path now)

/-! ## Per-file processing (src/website.go lines 139-233, after parsing) -/

/-- The per-file error of processMarkdownFile that the claims are about. -/
inductive ProcessError where
  | invalidMarkdown
deriving DecidableEq, Repr

/-- The observable outcome of processing a single parsed document: the
document as returned to the caller, the updated store, and the bytes
written back to the source file when a write happened. -/
structure ProcessResult where
  doc : Document
  store : List (String × Post)
  fileWrite : Option String
deriving DecidableEq, Repr

/-- Embedding of processMarkdownFile (src/website.go lines 139-233) from
the point where the document has been parsed: normalize the metadata; if
anything was filled in and the document is markdown, rewrite the
front-matter block (failing with ErrInvalidMarkdown when the delimiters are
malformed, in which case nothing further happens) and write the new source
text back; finally merge into the store.  `nowUTC` is the time observed at
line 164 and `now` the one observed at line 206. -/
def processMarkdownFile (store : List (String × Post)) (doc0 : Document)
    (path freshId : String) (entropy : List Nat) (nowUTC now : Nat) :
    Except ProcessError ProcessResult :=
  let doc1 := (normalizeMetadata doc0 freshId nowUTC entropy).1
  let updated := (normalizeMetadata doc0 freshId nowUTC entropy).2
  if updated then
    if doc1.type = DocumentType.markdown then
      match rewriteFrontMatter doc1.markdown (yamlMarshal doc1.metadata) with
      | none => Except.error ProcessError.invalidMarkdown
      | some newMd =>
        let doc2 : Document := { doc1 with markdown := newMd }
        Except.ok { doc := doc2, store := mergePost store doc2 path now, fileWrite := some newMd }
    else
      Except.ok { doc := doc1, store := mergePost store doc1 path now, fileWrite := none }
  else
    Except.ok { doc := doc1, store := mergePost store doc1 path now, fileWrite := none }

/-! ## Run orchestration (src/website.go generate and main) -/

/-- The per-file inputs of one processMarkdownFile call: the parsed
document plus the nondeterministic inputs (fresh ID, entropy, clock
readings) of that call. -/
structure FileInput where
  doc : Document
  path : String
  freshId : String
  entropy : List Nat
  nowUTC : Nat
  now : Nat
deriving Repr

/-- Embedding of the file loop of generate (src/website.go lines 261-273):
a failing file is logged and skipped, leaving the store unchanged; the run
continues. -/
def processFiles (store : List (String × Post)) : List FileInput → List (String × Post)
  | [] => store
  | f :: rest =>
    match processMarkdownFile store f.doc f.path f.freshId f.entropy f.nowUTC f.now with
    | Except.ok r => processFiles r.store rest
    | Except.error _ => processFiles store rest

/-- The dbFile constant of src/website.go. -/
def dbFile : String := "zdata/data.json.zstd"

/-- Modelled from the spec and main (src/website.go lines 322-346): the
JSON shape of the persisted DataStore, whose posts mapping may be absent
(a nil Go map) in a successfully decoded snapshot.  The DataStore struct
itself lives in a repository file outside src/. -/
structure DataStoreJson where
  posts : Option (List (String × Post))
deriving DecidableEq, Repr

/-- Outcome of decompressing and JSON-decoding the snapshot file: the zstd
and JSON codecs are external collaborators, so only their outcome is
modelled.  `corrupt` covers both a zstd reader failure (line 324) and a
JSON decode failure (line 329); `decoded none` is a decode that leaves the
DataStore pointer nil (line 340). -/
inductive SnapshotDecode where
  | corrupt
  | decoded (ds : Option DataStoreJson)

/-- Fatal startup errors of main: log.Fatal aborts the process. -/
inductive LoadError where
  | snapshotCorrupt
deriving DecidableEq, Repr

/-- Embedding of the load phase of main (src/website.go lines 283-346).
When no snapshot file exists, the code creates one holding the compressed
text of an empty JSON object and immediately reads it back, which decodes
to a DataStore with a nil posts map; a nil DataStore pointer or nil posts
map is then normalized to an empty map (lines 340-346).  A corrupt
snapshot aborts via log.Fatal before any processing. -/
def loadStore : Option SnapshotDecode → Except LoadError (List (String × Post))
  | none => Except.ok []
  | some SnapshotDecode.corrupt => Except.error LoadError.snapshotCorrupt
  | some (SnapshotDecode.decoded dsOpt) =>
    let ds := match dsOpt with
      | none => ({ posts := none } : DataStoreJson)
      | some ds => ds
    Except.ok (match ds.posts with
      | none => []
      | some ps => ps)

/-- The load-then-generate portion of main: the store is loaded (aborting
fatally on a corrupt snapshot, before any file is processed) and the file
loop runs over it. -/
def mainRun (snapshot : Option SnapshotDecode) (files : List FileInput) :
    Except LoadError (List (String × Post)) :=
  match loadStore snapshot with
  | Except.error e => Except.error e
  | Except.ok store => Except.ok (processFiles store files)

/-! ## Snapshot save (src/website.go lines 350-379)

The save phase is a sequence of filesystem effects: create the temporary
file `dbFile ++ ".tmp"` with O_EXCL (failing when it already exists), write
the compressed serialized store into it, and atomically rename it over the
final path.  A crash is modelled by running only a prefix of the step
list. -/

/-- The two files the save phase touches, with their byte contents. -/
structure FS where
  finalFile : Option (List Nat)
  tmpFile : Option (List Nat)
deriving DecidableEq, Repr

/-- Fatal failures of the save phase (each maps to a log.Fatal call). -/
inductive SaveError where
  | tmpExists
  | noTmp
deriving DecidableEq, Repr

/-- The filesystem steps of the save phase. -/
inductive SaveStep where
  | createTmp
  | writeTmp (data : List Nat)
  | renameTmp
deriving DecidableEq, Repr

/-- Effect of one save step: exclusive creation of the empty temporary
file (O_CREATE, O_TRUNC and O_EXCL, line 351), writing the serialized
compressed store into it (lines 356-374), and the atomic rename over the
final path (line 376). -/
def stepSave (fs : FS) : SaveStep → Except SaveError FS
  | SaveStep.createTmp =>
    if fs.tmpFile.isSome then Except.error SaveError.tmpExists
    else Except.ok { fs with tmpFile := some [] }
  | SaveStep.writeTmp d =>
    match fs.tmpFile with
    | none => Except.error SaveError.noTmp
    | some _ => Except.ok { fs with tmpFile := some d }
  | SaveStep.renameTmp =>
    match fs.tmpFile with
    | none => Except.error SaveError.noTmp
    | some d => Except.ok { finalFile := some d, tmpFile := none }

/-- Run a sequence of save steps, stopping at the first failure (each
failure is a log.Fatal in the source). -/
def runSteps : FS → List SaveStep → Except SaveError FS
  | fs, [] => Except.ok fs
  | fs, s :: rest =>
    match stepSave fs s with
    | Except.error e => Except.error e
    | Except.ok fs2 => runSteps fs2 rest

/-- The step sequence of one save of serialized compressed bytes `data`. -/
def saveSteps (data : List Nat) : List SaveStep :=
  [SaveStep.createTmp, SaveStep.writeTmp data, SaveStep.renameTmp]

/-! ## Helper lemmas -/

theorem lookupPost_insertPost (store : List (String × Post)) (k : String) (p : Post) :
    lookupPost (insertPost store k p) k = some p := by
  induction store with
  | nil => simp [insertPost, lookupPost]
  | cons hd tl ih =>
    obtain ⟨k', v⟩ := hd
    by_cases h : k' = k
    · subst h
      simp [insertPost, lookupPost]
    · simp [insertPost, lookupPost, h, ih]

theorem mergeFinal_createdAt (base : Post) (doc : Document) (path : String) (now : Nat) :
    (mergeFinal base doc path now).createdAt = base.createdAt := by
  simp only [mergeFinal]
  split <;> rfl

theorem mergeBase_of_lookup (store : List (String × Post)) (doc : Document) (now : Nat)
    (p : Post) (h : lookupPost store doc.metadata.id = some p) :
    mergeBase store doc now = p := by
  unfold mergeBase
  rw [h]

/-! ## Claim C2: merge into an existing post -/

/-- Claim C2: for every sync of a file whose post already exists in the
store, filePath, urlPath and main are set unconditionally from the freshly
parsed document; when the new digest differs from the stored contentHash,
the contentHash is replaced and updatedAt is set to the current time, and
when it is identical both are left byte-for-byte unchanged (as are
createdAt and the translation map, which the resulting record keeps from
the stored post). -/
theorem c2_existing_post_merge (store : List (String × Post)) (doc : Document)
    (path : String) (now : Nat) (p : Post)
    (h : lookupPost store doc.metadata.id = some p) :
    lookupPost (mergePost store doc path now) doc.metadata.id =
      some (if doc.hash = p.hash
        then { p with filePath := path, path := doc.metadata.path, main := some doc }
        else { p with
               filePath := path, path := doc.metadata.path, main := some doc
               hash := doc.hash, updatedAt := now }) := by
  unfold mergePost
  rw [mergeBase_of_lookup store doc now p h, lookupPost_insertPost]
  congr 1
  simp only [mergeFinal]
  by_cases hh : p.hash = doc.hash
  · simp [hh]
  · simp [hh, Ne.symm hh]

/-- Sample parsed document for the C2 witness. -/
def c2sampleDoc : Document :=
  { type := DocumentType.markdown, markdown := "---\nx\n---\nbody", html := "<p>b</p>"
    metadata := { id := "idx", title := "T", author := "A", description := "D"
                  date := 3, path := "/blog/posts/t-aa", goPackage := "", canonical := ""
                  hidden := false } }

/-- Sample stored post for the C2 witness. -/
def c2samplePost : Post :=
  { id := "idx", filePath := "old.md", path := "/old", hash := "stale"
    createdAt := 1, updatedAt := 2, main := none, translated := [] }

/-- Witness for C2: the theorem applied to a concrete one-post store. -/
theorem c2_existing_post_merge_witness :
    lookupPost (mergePost [("idx", c2samplePost)] c2sampleDoc "root/new.md" 9)
        c2sampleDoc.metadata.id =
      some (if c2sampleDoc.hash = c2samplePost.hash
        then { c2samplePost with
               filePath := "root/new.md", path := c2sampleDoc.metadata.path
               main := some c2sampleDoc }
        else { c2samplePost with
               filePath := "root/new.md", path := c2sampleDoc.metadata.path
               main := some c2sampleDoc, hash := c2sampleDoc.hash, updatedAt := 9 }) :=
  c2_existing_post_merge [("idx", c2samplePost)] c2sampleDoc "root/new.md" 9 c2samplePost rfl

/-! ## Claim C3: creation of a new post -/

/-- Claim C3: for a document whose metadata ID is not yet a store key, a
new Post is inserted under that ID with createdAt equal to updatedAt (both
the current time) and an empty translation map; and on every subsequent
sync of an ID that is present, createdAt is never modified. -/
theorem c3_new_post_creation (store : List (String × Post)) (doc : Document)
    (path : String) (now : Nat)
    (h : lookupPost store doc.metadata.id = none) :
    (lookupPost (mergePost store doc path now) doc.metadata.id =
      some { id := doc.metadata.id, filePath := path, path := doc.metadata.path
             hash := doc.hash, createdAt := now, updatedAt := now
             main := some doc, translated := [] })
    ∧ (∀ (store2 : List (String × Post)) (doc2 : Document) (path2 : String)
        (now2 : Nat) (q q' : Post),
        lookupPost store2 doc2.metadata.id = some q →
        lookupPost (mergePost store2 doc2 path2 now2) doc2.metadata.id = some q' →
        q'.createdAt = q.createdAt) := by
  constructor
  · unfold mergePost mergeBase
    rw [h, lookupPost_insertPost]
    congr 1
    simp only [mergeFinal]
    by_cases hh : ("" : String) = doc.hash
    · simp [← hh]
    · simp [hh, Ne.symm hh]
  · intro store2 doc2 path2 now2 q q' hq hq'
    unfold mergePost at hq'
    rw [lookupPost_insertPost] at hq'
    have h2 := Option.some.inj hq'
    rw [mergeBase_of_lookup store2 doc2 now2 q hq] at h2
    rw [← h2]
    exact mergeFinal_createdAt q doc2 path2 now2

/-- Sample parsed document for the C3 witness. -/
def c3sampleDoc : Document :=
  { type := DocumentType.markdown, markdown := "---\nx\n---\nbody", html := "<p>b</p>"
    metadata := { id := "fresh0", title := "T", author := "", description := ""
                  date := 3, path := "/blog/posts/t-bb", goPackage := "", canonical := ""
                  hidden := false } }

/-- Witness for C3: the creation half of the theorem at the empty store. -/
theorem c3_new_post_creation_witness :
    lookupPost (mergePost [] c3sampleDoc "root/n.md" 7) c3sampleDoc.metadata.id =
      some { id := c3sampleDoc.metadata.id, filePath := "root/n.md"
             path := c3sampleDoc.metadata.path, hash := c3sampleDoc.hash
             createdAt := 7, updatedAt := 7, main := some c3sampleDoc, translated := [] } :=
  (c3_new_post_creation [] c3sampleDoc "root/n.md" 7 rfl).1

/-! ## Normalization lemmas shared by C1, C4 and C5 -/

theorem normalizeMetadata_type (d : Document) (f : String) (n : Nat) (e : List Nat) :
    ((normalizeMetadata d f n e).1).type = d.type := rfl

theorem normalizeMetadata_markdown (d : Document) (f : String) (n : Nat) (e : List Nat) :
    ((normalizeMetadata d f n e).1).markdown = d.markdown := rfl

theorem normalizeMetadata_noop (d : Document) (f : String) (n : Nat) (e : List Nat)
    (h1 : d.metadata.id ≠ "") (h2 : d.metadata.date ≠ 0) (h3 : d.metadata.path ≠ "") :
    normalizeMetadata d f n e = (d, false) := by
  simp [normalizeMetadata, h1, h2, h3]

theorem process_fileWrite_cases (store : List (String × Post)) (d : Document)
    (path f : String) (e : List Nat) (n1 n2 : Nat) (r : ProcessResult)
    (hok : processMarkdownFile store d path f e n1 n2 = Except.ok r)
    (hs : r.fileWrite.isSome = true) :
    (normalizeMetadata d f n1 e).2 = true ∧ d.type = DocumentType.markdown := by
  by_cases hu : (normalizeMetadata d f n1 e).2 = true
  · by_cases ht : d.type = DocumentType.markdown
    · exact ⟨hu, ht⟩
    · have ht1 : ¬ ((normalizeMetadata d f n1 e).1).type = DocumentType.markdown := by
        rw [normalizeMetadata_type]; exact ht
      simp [processMarkdownFile, hu, ht1] at hok
      rw [← hok] at hs
      simp at hs
  · have hu' : (normalizeMetadata d f n1 e).2 = false := Bool.eq_false_iff.mpr hu
    simp [processMarkdownFile, hu'] at hok
    rw [← hok] at hs
    simp at hs

/-! ## Claim C4: the normalizer fills exactly the missing fields -/

/-- Claim C4: normalization fills exactly the missing metadata fields,
each exactly once — an empty ID receives the fresh random identifier, a
zero date receives the current UTC time, an empty path receives
generatePath of the title — never overwrites a field that is present,
leaves every other field and the document body untouched, and reports
whether anything was filled in; a file write happens only when something
was filled in and the document is markdown. -/
theorem c4_normalizer_fills_missing (d : Document) (f : String) (n : Nat) (e : List Nat) :
    (((normalizeMetadata d f n e).1).metadata.id
        = (if d.metadata.id = "" then f else d.metadata.id)
      ∧ ((normalizeMetadata d f n e).1).metadata.date
        = (if d.metadata.date = 0 then n else d.metadata.date)
      ∧ ((normalizeMetadata d f n e).1).metadata.path
        = (if d.metadata.path = "" then generatePath d.metadata.title e else d.metadata.path)
      ∧ ((normalizeMetadata d f n e).1).metadata.title = d.metadata.title
      ∧ ((normalizeMetadata d f n e).1).metadata.author = d.metadata.author
      ∧ ((normalizeMetadata d f n e).1).metadata.description = d.metadata.description
      ∧ ((normalizeMetadata d f n e).1).metadata.goPackage = d.metadata.goPackage
      ∧ ((normalizeMetadata d f n e).1).metadata.canonical = d.metadata.canonical
      ∧ ((normalizeMetadata d f n e).1).metadata.hidden = d.metadata.hidden
      ∧ ((normalizeMetadata d f n e).1).type = d.type
      ∧ ((normalizeMetadata d f n e).1).markdown = d.markdown
      ∧ ((normalizeMetadata d f n e).1).html = d.html
      ∧ (normalizeMetadata d f n e).2
        = (decide (d.metadata.id = "") || decide (d.metadata.date = 0)
            || decide (d.metadata.path = "")))
    ∧ (∀ (store : List (String × Post)) (path : String) (now2 : Nat) (r : ProcessResult),
        processMarkdownFile store d path f e n now2 = Except.ok r →
        r.fileWrite.isSome = true →
        (normalizeMetadata d f n e).2 = true ∧ d.type = DocumentType.markdown) := by
  constructor
  · by_cases h1 : d.metadata.id = "" <;> by_cases h2 : d.metadata.date = 0 <;>
      by_cases h3 : d.metadata.path = "" <;>
      simp [normalizeMetadata, h1, h2, h3]
  · intro store path now2 r hok hs
    exact process_fileWrite_cases store d path f e n now2 r hok hs

/-- Sample markdown document with a missing ID for the C4 witness. -/
def c4sampleDoc : Document :=
  { type := DocumentType.markdown, markdown := "---\nold\n---\nbody\n", html := "<p>b</p>"
    metadata := { id := "", title := "T", author := "", description := ""
                  date := 7, path := "/blog/posts/t-cc", goPackage := "", canonical := ""
                  hidden := false } }

/-- The processing outcome of the C4 sample document. -/
def c4sampleRes : ProcessResult :=
  (processMarkdownFile [] c4sampleDoc "root/c.md" "fid" [1, 2, 3, 4] 3 5).toOption.getD
    { doc := c4sampleDoc, store := [], fileWrite := none }

/-- Witness for C4: the file-write conjunct applied to a concrete run in
which a write did happen. -/
theorem c4_normalizer_fills_missing_witness :
    (normalizeMetadata c4sampleDoc "fid" 3 [1, 2, 3, 4]).2 = true
      ∧ c4sampleDoc.type = DocumentType.markdown :=
  (c4_normalizer_fills_missing c4sampleDoc "fid" 3 [1, 2, 3, 4]).2 [] "root/c.md" 5
    c4sampleRes rfl rfl

/-! ## Claim C5: normalization is idempotent in effect -/

/-- Claim C5: for a markdown document whose metadata ID, date and path are
all already present, processing performs no write-back (so the source file
bytes stay unchanged) and returns the document unmodified; and a document
with a nonempty ID never has that ID changed by normalization, so an ID
assigned and written back by one run is preserved by every later run. -/
theorem c5_normalization_idempotent (store : List (String × Post)) (d : Document)
    (path f : String) (e : List Nat) (n1 n2 : Nat)
    (_h0 : d.type = DocumentType.markdown)
    (h1 : d.metadata.id ≠ "") (h2 : d.metadata.date ≠ 0) (h3 : d.metadata.path ≠ "") :
    (processMarkdownFile store d path f e n1 n2 =
      Except.ok { doc := d, store := mergePost store d path n2, fileWrite := none })
    ∧ (∀ (d2 : Document) (f2 : String) (n3 : Nat) (e2 : List Nat),
        d2.metadata.id ≠ "" →
        ((normalizeMetadata d2 f2 n3 e2).1).metadata.id = d2.metadata.id) := by
  constructor
  · have hn := normalizeMetadata_noop d f n1 e h1 h2 h3
    simp [processMarkdownFile, hn]
  · intro d2 f2 n3 e2 hid
    by_cases hb : d2.metadata.date = 0 <;> by_cases hc : d2.metadata.path = "" <;>
      simp [normalizeMetadata, hid, hb, hc]

/-- Sample fully normalized markdown document for the C5 witness. -/
def c5sampleDoc : Document :=
  { type := DocumentType.markdown, markdown := "---\nmeta\n---\nbody\n", html := "<p>b</p>"
    metadata := { id := "idz", title := "T", author := "", description := ""
                  date := 4, path := "/blog/posts/t-dd", goPackage := "", canonical := ""
                  hidden := false } }

/-- Witness for C5: a concrete fully normalized document passes through
processing without any write-back and byte-for-byte unchanged. -/
theorem c5_normalization_idempotent_witness :
    processMarkdownFile [] c5sampleDoc "root/d.md" "f" [1, 2, 3, 4] 3 5 =
      Except.ok { doc := c5sampleDoc, store := mergePost [] c5sampleDoc "root/d.md" 5
                  fileWrite := none } :=
  (c5_normalization_idempotent [] c5sampleDoc "root/d.md" "f" [1, 2, 3, 4] 3 5 rfl
    (by decide) (by decide) (by decide)).1

/-! ## Claim C1: behaviour on a malformed front-matter block

The claim states that after an InvalidSourceFormat failure the in-memory
store merge still proceeds and the document is reported as successfully
processed.  The source does the opposite: processMarkdownFile returns
ErrInvalidMarkdown before reaching the store-update block, the caller logs
the file as failed, and the store is left unchanged for that file. -/

/-- Counterexample to claim C1 as stated: a markdown document whose
normalization fills a field but whose source text has no front-matter
delimiter is reported as failed (ErrInvalidMarkdown), and a run over just
this file leaves the store empty — the store merge did not proceed. -/
def c1sampleDoc : Document :=
  { type := DocumentType.markdown, markdown := "hello world", html := "<p>hello world</p>"
    metadata := { id := "", title := "T", author := "", description := ""
                  date := 7, path := "/blog/posts/t-ee", goPackage := "", canonical := ""
                  hidden := false } }

/-- Counterexample for C1: processing the sample document errors with
ErrInvalidMarkdown instead of succeeding, and the post store stays empty
instead of receiving the document. -/
theorem c1_claim_counterexample :
    processMarkdownFile [] c1sampleDoc "root/a.md" "fresh" [1, 2, 3, 4] 10 11 =
        Except.error ProcessError.invalidMarkdown
    ∧ mainRun none [{ doc := c1sampleDoc, path := "root/a.md", freshId := "fresh"
                      entropy := [1, 2, 3, 4], nowUTC := 10, now := 11 }] = Except.ok [] :=
  ⟨rfl, rfl⟩

/-- Amended claim C1: when write-back of a markdown document fails with
InvalidSourceFormat, processing of that file aborts with an error — the
write-back is skipped, the store merge does not happen, and the document
is reported as failed rather than successfully processed (the run itself
continues with other files). -/
theorem c1_invalid_format_aborts (store : List (String × Post)) (d : Document)
    (path f : String) (e : List Nat) (n1 n2 : Nat)
    (hu : (normalizeMetadata d f n1 e).2 = true)
    (ht : d.type = DocumentType.markdown)
    (hr : rewriteFrontMatter d.markdown
        (yamlMarshal ((normalizeMetadata d f n1 e).1).metadata) = none) :
    processMarkdownFile store d path f e n1 n2 = Except.error ProcessError.invalidMarkdown := by
  have ht1 : ((normalizeMetadata d f n1 e).1).type = DocumentType.markdown := by
    rw [normalizeMetadata_type]; exact ht
  have hm : ((normalizeMetadata d f n1 e).1).markdown = d.markdown :=
    normalizeMetadata_markdown d f n1 e
  simp [processMarkdownFile, hu, ht1, hm, hr]

/-- Witness for the amended C1 at the concrete sample document. -/
theorem c1_invalid_format_aborts_witness :
    processMarkdownFile [] c1sampleDoc "root/a.md" "fresh" [1, 2, 3, 4] 10 11 =
      Except.error ProcessError.invalidMarkdown :=
  c1_invalid_format_aborts [] c1sampleDoc "root/a.md" "fresh" [1, 2, 3, 4] 10 11 rfl rfl rfl

/-! ## Claim C6: hash purity and collision resistance

Both hash functions are deterministic pure functions of exactly the listed
fields, but the collision-resistance half of the claim fails structurally:
the Go code concatenates the fields into the blake3 input with no length
prefixes or separators, so records that differ in listed fields can feed
the hasher the identical byte stream and therefore receive the identical
digest, with no cryptographic accident involved. -/

/-- Metadata record for the C6 counterexample (ID "ab", empty title). -/
def c6sampleMeta1 : Metadata :=
  { id := "ab", title := "", author := "", description := "", date := 0, path := ""
    goPackage := "", canonical := "", hidden := false }

/-- Metadata record for the C6 counterexample (ID "a", title "b"). -/
def c6sampleMeta2 : Metadata :=
  { id := "a", title := "b", author := "", description := "", date := 0, path := ""
    goPackage := "", canonical := "", hidden := false }

/-- Counterexample for C6: two metadata records differing in both the id
and the title field produce the identical digest input stream, hence the
identical blake3 digest — the claimed collision resistance over records
that differ in a listed field does not hold. -/
theorem c6_claim_counterexample :
    Metadata.hash c6sampleMeta1 = Metadata.hash c6sampleMeta2
      ∧ c6sampleMeta1.id ≠ c6sampleMeta2.id
      ∧ c6sampleMeta1.title ≠ c6sampleMeta2.title := by
  refine ⟨?_, ?_, ?_⟩ <;> decide

/-- Amended claim C6: hash(metadata) is a deterministic pure function of
exactly the eight metadata fields (with the date serialized in a fixed
format), and hash(document) is a deterministic pure function of exactly
(type, rawSource, renderedHTML, hash(metadata)) — in particular it
depends on the metadata only through its digest; but the functions are
not collision-resistant over distinct records, because the fields are
concatenated without separators before hashing. -/
theorem c6_hash_purity :
    (∀ m1 m2 : Metadata, m1.id = m2.id → m1.title = m2.title → m1.author = m2.author →
      m1.description = m2.description → m1.date = m2.date → m1.path = m2.path →
      m1.goPackage = m2.goPackage → m1.canonical = m2.canonical → m1.hidden = m2.hidden →
      Metadata.hash m1 = Metadata.hash m2)
    ∧ (∀ d1 d2 : Document, d1.type = d2.type → d1.markdown = d2.markdown →
        d1.html = d2.html → Metadata.hash d1.metadata = Metadata.hash d2.metadata →
        Document.hash d1 = Document.hash d2) := by
  constructor
  · intro m1 m2 h1 h2 h3 h4 h5 h6 h7 h8 h9
    simp [Metadata.hash, h1, h2, h3, h4, h5, h6, h7, h8, h9]
  · intro d1 d2 h1 h2 h3 h4
    simp [Document.hash, h1, h2, h3, h4]

/-- Document wrapping the first C6 metadata record. -/
def c6sampleDoc1 : Document :=
  { type := DocumentType.markdown, markdown := "m", html := "h", metadata := c6sampleMeta1 }

/-- Document wrapping the second C6 metadata record. -/
def c6sampleDoc2 : Document :=
  { type := DocumentType.markdown, markdown := "m", html := "h", metadata := c6sampleMeta2 }

/-- Witness for C6: two concrete documents with distinct metadata but
equal metadata digests receive the same document digest. -/
theorem c6_hash_purity_witness :
    Document.hash c6sampleDoc1 = Document.hash c6sampleDoc2 :=
  c6_hash_purity.2 c6sampleDoc1 c6sampleDoc2 rfl rfl rfl (by decide)

/-! ## Claim C8: snapshot load -/

/-- Claim C8: at startup a missing snapshot file yields an empty store; a
snapshot that fails to decompress or deserialize aborts the run fatally
before any file is processed; and a nil DataStore pointer or missing posts
mapping inside a successfully decoded snapshot is normalized to an empty
mapping. -/
theorem c8_snapshot_load :
    loadStore none = Except.ok []
    ∧ loadStore (some SnapshotDecode.corrupt) = Except.error LoadError.snapshotCorrupt
    ∧ (∀ files : List FileInput,
        mainRun (some SnapshotDecode.corrupt) files = Except.error LoadError.snapshotCorrupt)
    ∧ loadStore (some (SnapshotDecode.decoded none)) = Except.ok []
    ∧ loadStore (some (SnapshotDecode.decoded (some { posts := none }))) = Except.ok []
    ∧ (∀ ps : List (String × Post),
        loadStore (some (SnapshotDecode.decoded (some { posts := some ps }))) = Except.ok ps) :=
  ⟨rfl, rfl, fun _ => rfl, rfl, rfl, fun _ => rfl⟩

/-! ## Claim C9: atomic snapshot save -/

/-- Claim C9: the save phase creates the temporary file (named by
appending ".tmp" to the snapshot path, hence in the same directory)
exclusively — failing fatally when it already exists — writes the data
into it and renames it over the final path; stopping after any prefix of
the steps leaves the final snapshot either fully the old contents or
fully the new contents, with the old contents intact at every point
before the rename and the new contents in place after it. -/
theorem c9_snapshot_save_atomic (fs : FS) (data : List Nat) (h : fs.tmpFile = none) :
    (∀ (k : Nat) (fs2 : FS), runSteps fs ((saveSteps data).take k) = Except.ok fs2 →
        fs2.finalFile = fs.finalFile ∨ fs2.finalFile = some data)
    ∧ (∀ k : Nat, k < 3 → ∃ fs2 : FS, runSteps fs ((saveSteps data).take k) = Except.ok fs2
        ∧ fs2.finalFile = fs.finalFile)
    ∧ runSteps fs (saveSteps data) = Except.ok { finalFile := some data, tmpFile := none }
    ∧ (∀ fs3 : FS, fs3.tmpFile.isSome = true →
        stepSave fs3 SaveStep.createTmp = Except.error SaveError.tmpExists)
    ∧ dbFile ++ ".tmp" = "zdata/data.json.zstd.tmp" := by
  refine ⟨?_, ?_, ?_, ?_, rfl⟩
  · intro k fs2 hr
    match k with
    | 0 =>
      simp [saveSteps, runSteps] at hr
      left; rw [← hr]
    | 1 =>
      simp [saveSteps, runSteps, stepSave, h] at hr
      left; rw [← hr]
    | 2 =>
      simp [saveSteps, runSteps, stepSave, h] at hr
      left; rw [← hr]
    | (n + 3) =>
      simp [saveSteps, runSteps, stepSave, h, List.take] at hr
      right; rw [← hr]
  · intro k hk
    match k with
    | 0 => exact ⟨fs, by simp [saveSteps, runSteps], rfl⟩
    | 1 =>
      exact ⟨{ fs with tmpFile := some [] },
        by simp [saveSteps, runSteps, stepSave, h], rfl⟩
    | 2 =>
      exact ⟨{ fs with tmpFile := some data },
        by simp [saveSteps, runSteps, stepSave, h], rfl⟩
  · simp [saveSteps, runSteps, stepSave, h]
  · intro fs3 h3
    simp [stepSave, h3]

/-- Witness for C9: a concrete save over an existing snapshot replaces it
with the new contents and leaves no temporary file. -/
theorem c9_snapshot_save_atomic_witness :
    runSteps { finalFile := some [1], tmpFile := none } (saveSteps [2]) =
      Except.ok { finalFile := some [2], tmpFile := none } :=
  (c9_snapshot_save_atomic { finalFile := some [1], tmpFile := none } [2] rfl).2.2.1

/-! ## Lemmas about cut, shared by C10 -/

theorem isPrefixOf_eq_append (sep s : List Char) (h : sep.isPrefixOf s) :
    s = sep ++ s.drop sep.length := by
  obtain ⟨t, ht⟩ := List.isPrefixOf_iff_prefix.mp h
  rw [← ht, List.drop_left]

theorem cut_cons_pos (sep : List Char) (c : Char) (rest : List Char)
    (hp : sep.isPrefixOf (c :: rest)) :
    cut sep (c :: rest) = some ([], (c :: rest).drop sep.length) := by
  simp [cut, hp]

theorem cut_cons_neg (sep : List Char) (c : Char) (rest : List Char)
    (hp : ¬ sep.isPrefixOf (c :: rest)) :
    cut sep (c :: rest) = (cut sep rest).map (fun p => (c :: p.1, p.2)) := by
  simp [cut, hp]

theorem cut_eq_append (sep : List Char) :
    ∀ s a b : List Char, cut sep s = some (a, b) → s = a ++ sep ++ b := by
  intro s
  induction s with
  | nil =>
    intro a b h
    by_cases hp : sep.isPrefixOf ([] : List Char)
    · have hsep : sep = [] := List.prefix_nil.mp (List.isPrefixOf_iff_prefix.mp hp)
      simp [cut, hp, hsep] at h
      obtain ⟨ha, hb⟩ := h
      subst ha; subst hb
      simp [hsep]
    · simp [cut, hp] at h
  | cons c rest ih =>
    intro a b h
    by_cases hp : sep.isPrefixOf (c :: rest)
    · rw [cut_cons_pos sep c rest hp] at h
      injection h with h2
      injection h2 with ha hb
      subst ha; subst hb
      simpa using isPrefixOf_eq_append sep (c :: rest) hp
    · rw [cut_cons_neg sep c rest hp] at h
      cases hx : cut sep rest with
      | none => rw [hx] at h; simp at h
      | some p =>
        rw [hx] at h
        simp only [Option.map_some'] at h
        injection h with h2
        injection h2 with ha hb
        subst ha; subst hb
        have hr := ih p.1 p.2 (by rw [hx])
        rw [hr]
        simp

theorem cut_none_iff (sep : List Char) :
    ∀ s : List Char, cut sep s = none ↔ containsSub sep s = false := by
  intro s
  induction s with
  | nil =>
    by_cases hp : sep.isPrefixOf ([] : List Char) <;> simp [cut, containsSub, hp]
  | cons c rest ih =>
    by_cases hp : sep.isPrefixOf (c :: rest)
    · rw [cut_cons_pos sep c rest hp]
      simp [containsSub, hp]
    · rw [cut_cons_neg sep c rest hp]
      simp [containsSub, hp, ih]

theorem cut_min (sep : List Char) :
    ∀ s a b : List Char, cut sep s = some (a, b) →
      ∀ a2 b2 : List Char, s = a2 ++ sep ++ b2 → a.length ≤ a2.length := by
  intro s
  induction s with
  | nil =>
    intro a b h a2 b2 he
    by_cases hp : sep.isPrefixOf ([] : List Char)
    · have hsep : sep = [] := List.prefix_nil.mp (List.isPrefixOf_iff_prefix.mp hp)
      simp [cut, hp, hsep] at h
      obtain ⟨ha, hb⟩ := h
      subst ha
      simp
    · simp [cut, hp] at h
  | cons c rest ih =>
    intro a b h a2 b2 he
    by_cases hp : sep.isPrefixOf (c :: rest)
    · rw [cut_cons_pos sep c rest hp] at h
      injection h with h2
      injection h2 with ha hb
      subst ha
      simp
    · rw [cut_cons_neg sep c rest hp] at h
      cases hx : cut sep rest with
      | none => rw [hx] at h; simp at h
      | some p =>
        rw [hx] at h
        simp only [Option.map_some'] at h
        injection h with h2
        injection h2 with ha hb
        subst ha
        cases a2 with
        | nil =>
          exfalso
          apply hp
          rw [List.isPrefixOf_iff_prefix]
          exact ⟨b2, by simpa using he.symm⟩
        | cons c2 a2t =>
          simp at he
          have hle := ih p.1 p.2 (by rw [hx]) a2t b2 (by rw [he.2]; simp [List.append_assoc])
          simpa using hle

/-! ## Claim C10: lax front-matter delimiter detection -/

/-- Claim C10: write-back delimiter detection is lax — the
ErrInvalidMarkdown error is raised exactly when the delimiter line occurs
nowhere in the source after stripping one leading delimiter line; and for
a source that does not begin with a front-matter block but contains the
delimiter somewhere later, write-back succeeds and every byte before that
first occurrence (which the cut places in the discarded component) is
dropped from the rewritten file. -/
theorem c10_lax_delimiter_detection (md meta : String) :
    (rewriteFrontMatter md meta = none
      ↔ containsSub fmDelim.data (trimPrefixL md.data fmDelim.data) = false)
    ∧ (∀ pre rest : List Char, fmDelim.data.isPrefixOf md.data = false →
        cut fmDelim.data md.data = some (pre, rest) →
        md.data = pre ++ fmDelim.data ++ rest
        ∧ (∀ a b : List Char, md.data = a ++ fmDelim.data ++ b → pre.length ≤ a.length)
        ∧ rewriteFrontMatter md meta =
            some (String.mk (fmDelim.data ++ meta.data ++ fmDelim.data ++ rest))) := by
  constructor
  · unfold rewriteFrontMatter
    rw [Option.map_eq_none']
    exact cut_none_iff fmDelim.data (trimPrefixL md.data fmDelim.data)
  · intro pre rest hp hc
    have htp : trimPrefixL md.data fmDelim.data = md.data := by
      unfold trimPrefixL
      simp [hp]
    refine ⟨cut_eq_append _ _ _ _ hc, cut_min _ _ _ _ hc, ?_⟩
    simp only [rewriteFrontMatter, htp]
    rw [hc]
    rfl

/-- Witness for C10: a source that starts with the text "junk" rather
than a front-matter block is rewritten successfully and the leading bytes
are discarded from the result. -/
theorem c10_lax_delimiter_detection_witness :
    ("junk---\nbody".data = "junk".data ++ fmDelim.data ++ "body".data)
    ∧ rewriteFrontMatter "junk---\nbody" "x: y\n" =
        some (String.mk (fmDelim.data ++ "x: y\n".data ++ fmDelim.data ++ "body".data)) := by
  have h := (c10_lax_delimiter_detection "junk---\nbody" "x: y\n").2 "junk".data "body".data
    (by decide) (by decide)
  exact ⟨h.1, h.2.2⟩

/-! ## Hex-encoding lemmas shared by C7 -/

theorem data_mk (l : List Char) : (String.mk l).data = l := rfl

theorem hexChar_inj (a b : Nat) (ha : a < 16) (hb : b < 16) (h : hexChar a = hexChar b) :
    a = b := by
  have key : ∀ i j : Fin 16, hexChar i.val = hexChar j.val → i = j := by decide
  have h2 := key ⟨a, ha⟩ ⟨b, hb⟩ h
  exact congrArg Fin.val h2

theorem bytesHex_inj :
    ∀ b1 b2 : List Nat, b1.length = b2.length → (∀ x ∈ b1, x < 256) → (∀ x ∈ b2, x < 256) →
      bytesHex b1 = bytesHex b2 → b1 = b2 := by
  intro b1
  induction b1 with
  | nil =>
    intro b2 hl _ _ _
    cases b2 with
    | nil => rfl
    | cons y r2 => simp at hl
  | cons x r1 ih =>
    intro b2 hl h1 h2 heq
    cases b2 with
    | nil => simp at hl
    | cons y r2 =>
      simp [bytesHex, byteHex] at heq
      obtain ⟨e1, e2, e3⟩ := heq
      have hx : x < 256 := h1 x (by simp)
      have hy : y < 256 := h2 y (by simp)
      have d1 := hexChar_inj (x / 16) (y / 16) (by omega) (by omega) e1
      have d2 := hexChar_inj (x % 16) (y % 16) (by omega) (by omega) e2
      have hxy : x = y := by omega
      subst hxy
      have hr := ih r2 (by simpa using hl) (fun z hz => h1 z (by simp [hz]))
        (fun z hz => h2 z (by simp [hz])) e3
      rw [hr]

/-! ## Claim C7: generatePath

The claim holds except for one word: it promises that whitespace is
replaced by hyphens, but the source replaces only the space character
(strings.ReplaceAll with " "), so a tab or newline in the title survives
into the generated path unchanged. -/

/-- Counterexample for C7: a title containing a tab — whitespace by any
definition — keeps the tab in the generated path instead of having it
replaced by a hyphen as the claim requires. -/
theorem c7_claim_counterexample :
    generatePath "a\tb" [0, 0, 0, 0] = "/blog/posts/a\tb-00000000"
    ∧ generatePath "a\tb" [0, 0, 0, 0] ≠ "/blog/posts/a-b-00000000" := by
  constructor <;> decide

/-- Amended claim C7: for every title, generatePath totally returns a
nonempty path of the form /blog/posts/(slug)-(hex suffix), where the slug
strips the root prefix and leading slashes, lowercases, replaces the
space character (not all whitespace) and the unsafe characters by
hyphens, and collapses runs of 2 to 4 hyphens to one; two calls with the
same title and distinct entropy yield distinct paths, and the
"Hello World" example produces /blog/posts/hello-world-(hex). -/
theorem c7_generate_path :
    (generatePath "Hello World" [222, 173, 190, 239] = "/blog/posts/hello-world-deadbeef")
    ∧ (generatePath "Hello World" [1, 2, 3, 4] = "/blog/posts/hello-world-01020304")
    ∧ (generatePath "root/A  B" [0, 0, 0, 0] = "/blog/posts/a-b-00000000")
    ∧ (generatePath "x---y" [0, 0, 0, 0] = "/blog/posts/x-y-00000000")
    ∧ (generatePath "" [0, 0, 0, 0] = "/blog/posts/-00000000")
    ∧ (∀ (title : String) (entropy : List Nat), generatePath title entropy ≠ "")
    ∧ (∀ (title : String) (b1 b2 : List Nat), b1.length = b2.length →
        (∀ x ∈ b1, x < 256) → (∀ x ∈ b2, x < 256) → b1 ≠ b2 →
        generatePath title b1 ≠ generatePath title b2) := by
  refine ⟨by decide, by decide, by decide, by decide, by decide, ?_, ?_⟩
  · intro title entropy h
    have h2 : "/blog/posts/".data ++ slugOf title ++ ['-'] ++ bytesHex entropy
        = ("" : String).data := congrArg String.data h
    exact List.cons_ne_nil '/' _ h2
  · intro title b1 b2 hl hb1 hb2 hne heq
    apply hne
    have h2 : "/blog/posts/".data ++ slugOf title ++ ['-'] ++ bytesHex b1
        = "/blog/posts/".data ++ slugOf title ++ ['-'] ++ bytesHex b2 :=
      congrArg String.data heq
    have h3 := List.append_cancel_left h2
    exact bytesHex_inj b1 b2 hl hb1 hb2 h3

/-- Witness for C7: two concrete entropy draws over the same title give
two different paths. -/
theorem c7_generate_path_witness :
    generatePath "Hello World" [0, 0, 0, 1] ≠ generatePath "Hello World" [0, 0, 0, 2] :=
  c7_generate_path.2.2.2.2.2.2 "Hello World" [0, 0, 0, 1] [0, 0, 0, 2] rfl (by decide)
    (by decide) (by decide)

end Website
